import Mathlib

/-!
# Verification of the shittygui widget-tree core

Shallow embedding of the widget-tree lifecycle and event/animation
coordination engine of the shittygui C++ library, together with proofs
about it.  The embedding follows the current revision of the sources:

* `include/shittygui/Types.h` (geometry: `Size` is `uint16_t`-valued,
  `Point` is `int16_t`-valued, `Rect.inset`, `Rect.contains`);
* `src/Widgets/Base.cpp` (`addChild`, `removeChild`, `needsDisplay`,
  `needsChildDisplay`, `drawChildren`, `findChildAt`);
* `include/shittygui/Widget.h` (flag fields, `isDirty`, `draw` base
  implementation, `setFrame`);
* `src/Screen.cpp` (`processEvents`, touch routing, events-inhibited);
* `src/ViewController.cpp` (`presentViewController`,
  `dismissViewController`, `processAnimationFrame`) together with the
  easing function `EasingFunctions::InOutQuad`.

Machine integers are modelled as `Int`/`Nat` with explicit wrapping at
the points where the C++ performs a narrowing conversion.  The C++
`double` values that appear in the animation math and in `Rect.inset`
are modelled as rationals.
-/

namespace ShittyGui

/-! ## Geometry (`include/shittygui/Types.h`) -/

/-- Wrap an integer into the `uint16_t` range `[0, 65536)`, as the
two's-complement narrowing conversions in the source do. -/
def wrapU16 (n : Int) : Nat := (n % 65536).toNat

/-- Wrap an integer into the `int16_t` range `[-32768, 32768)`. -/
def wrapS16 (n : Int) : Int := ((n + 32768) % 65536) - 32768

/-- Truncation of a rational toward zero: the conversion a C++
`static_cast` from `double` to an integer type performs. -/
def truncQ (q : ℚ) : Int := if 0 ≤ q then ⌊q⌋ else ⌈q⌉

/-- `struct Size`: width and height are `uint16_t` fields.  The values
stored by the operations below are always reduced modulo 2^16. -/
structure Size where
  width : Nat
  height : Nat
deriving Repr, DecidableEq

/-- `struct Point`: x and y are `int16_t` fields. -/
structure Point where
  x : Int
  y : Int
deriving Repr, DecidableEq

/-- `struct Rect`: an origin point and a size. -/
structure Rect where
  origin : Point
  size : Size
deriving Repr, DecidableEq

/-- `Rect::inset(dX, dY)`: the origin is shifted by the (double-valued)
inset amounts and the size decreased by double these values.  The C++
compound assignments narrow the double intermediate back into the
`int16_t` origin fields and the `uint16_t` size fields; the narrowing
is modelled by truncation toward zero followed by the two's-complement
wrap (for out-of-range values the C++ conversion from a floating-point
value is not defined by the standard; the wrap models the common
behaviour). -/
def Rect.inset (r : Rect) (dX dY : ℚ) : Rect where
  origin := ⟨wrapS16 (truncQ ((r.origin.x : ℚ) + dX)),
             wrapS16 (truncQ ((r.origin.y : ℚ) + dY))⟩
  size := ⟨wrapU16 (truncQ ((r.size.width : ℚ) - dX * 2)),
           wrapU16 (truncQ ((r.size.height : ℚ) - dY * 2))⟩

/-- `Rect::contains(p)`: inclusive bounds test.  The comparisons are
performed after the usual arithmetic promotion to `int`, so no
narrowing occurs here. -/
def Rect.containsP (r : Rect) (p : Point) : Bool :=
  let x2 := r.origin.x + (r.size.width : Int)
  let y2 := r.origin.y + (r.size.height : Int)
  p.x ≥ r.origin.x && p.x ≤ x2 && p.y ≥ r.origin.y && p.y ≤ y2

/-! ## Widget tree (`include/shittygui/Widget.h`, `src/Widgets/Base.cpp`)

A widget is a tree node carrying its frame rectangle and the per-node
flags of the C++ `Widget` class.  Widgets are identified by a numeric
id `wid` (standing in for the C++ object identity) so that hit-test
results and the touch-tracking binding can refer to them.  The `bounds`
rectangle is derived state (`{{0, 0}, frame.size}`, maintained by
`setFrame`) and is therefore computed from the frame on demand. -/

/-- The scalar fields of the C++ `Widget` class needed by the claims:
the frame, the two dirty bits, the drawing-inhibition and hidden bits,
and the `wantsTouchTracking` capability (a virtual method; modelled as
a per-widget constant). -/
structure WProps where
  wid : Nat
  frame : Rect
  dirtyFlag : Bool
  childrenDirtyFlag : Bool
  inhibitDrawing : Bool
  hidden : Bool
  tracksTouch : Bool
deriving Repr, DecidableEq

/-- A widget together with its (strongly owned) children, in insertion
order: `addChild` with `atStart = false` appends at the back. -/
inductive Widget where
  | node : WProps → List Widget → Widget
deriving Repr

/-- The scalar fields of a widget. -/
def Widget.props : Widget → WProps
  | .node p _ => p

/-- The ordered child list of a widget. -/
def Widget.children : Widget → List Widget
  | .node _ cs => cs

/-- `Widget::getBounds()`: same size as the frame, origin zeroed. -/
def Widget.bounds (w : Widget) : Rect :=
  ⟨⟨0, 0⟩, w.props.frame.size⟩

/-- `Widget::isDirty()`: either dirty flag set. -/
def Widget.isDirty (w : Widget) : Bool :=
  w.props.dirtyFlag || w.props.childrenDirtyFlag

/-- A freshly constructed widget: the constructor runs `setFrame`,
which calls `needsDisplay` (no parent yet, so only the widget's own
dirty flag is set) and `frameDidChange` (a no-op without a parent or
screen). -/
def newWidget (wid : Nat) (frame : Rect) : Widget :=
  .node { wid := wid, frame := frame, dirtyFlag := true,
          childrenDirtyFlag := false, inhibitDrawing := false,
          hidden := false, tracksTouch := false } []

/-! ### Hit testing (`Widget::findChildAt`, Base.cpp) -/

/-- The point translation `Point(at.x - childFrame.origin.x, at.y -
childFrame.origin.y)` performed while descending: the `Point`
constructor takes `int16_t` arguments, so the differences are narrowed. -/
def translateInto (at_ : Point) (childFrame : Rect) : Point :=
  ⟨wrapS16 (at_.x - childFrame.origin.x), wrapS16 (at_.y - childFrame.origin.y)⟩

mutual

/-- `Widget::findChildAt(at, outRelativePoint)`: bail if the widget's
own bounds reject the point; otherwise search the children in reverse
insertion order, returning the first descendant that resolves the
point, and fall back to the widget itself with the point unchanged.
The result is the resolved widget's id together with the coordinates
of the query point relative to it. -/
def findChildAt : Widget → Point → Option (Nat × Point)
  | .node p cs, at_ =>
    if (Widget.bounds (.node p cs)).containsP at_ then
      match findChildRev cs at_ with
      | some r => some r
      | none => some (p.wid, at_)
    else
      none

/-- The reverse-order iteration over the child list: the children at
the back of the list (most recently added, visually topmost) are tried
first. -/
def findChildRev : List Widget → Point → Option (Nat × Point)
  | [], _ => none
  | c :: cs, at_ =>
    match findChildRev cs at_ with
    | some r => some r
    | none => findChildAt c (translateInto at_ c.props.frame)

end

mutual

/-- All widget ids occurring in a tree. -/
def wids : Widget → List Nat
  | .node p cs => p.wid :: widsList cs

/-- All widget ids occurring in a forest. -/
def widsList : List Widget → List Nat
  | [] => []
  | c :: cs => wids c ++ widsList cs

end

/-! ### Draw traversal (`Widget::draw`, `Widget::drawChildren`) -/

/-- The base-class `Widget::draw(ctx, everything)`: renders the
widget's own content and clears the self-dirty flag as a
post-condition.  Only the flag effect is modelled. -/
def drawW : Widget → Widget
  | .node p cs => .node { p with dirtyFlag := false } cs

mutual

/-- What `Widget::drawChildren` does to one (non-root) widget of the
traversed subtree: a child with `inhibitDrawing` set is skipped
entirely (the `continue`, so neither it nor its subtree is touched);
otherwise, if the child `isDirty()` or `everything` is set, the child
is drawn (clearing its self-dirty flag); then the traversal recurses
into the child's children regardless of the child's own dirty status —
the child's own `drawChildren` returns early when the child has no
children (leaving its children-dirty flag untouched) and otherwise
clears the child's children-dirty flag after the pass. -/
def drawNode : Widget → Bool → Widget
  | .node p cs, everything =>
    if p.inhibitDrawing then .node p cs
    else
      let p1 := if (p.dirtyFlag || p.childrenDirtyFlag) || everything
                then { p with dirtyFlag := false } else p
      if cs.isEmpty then .node p1 cs
      else .node { p1 with childrenDirtyFlag := false } (drawList cs everything)

/-- The loop of `Widget::drawChildren` over a child list, in insertion
order. -/
def drawList : List Widget → Bool → List Widget
  | [], _ => []
  | c :: rest, everything => drawNode c everything :: drawList rest everything

end

/-- `Widget::drawChildren(ctx, everything)` on a widget: early abort if
there are no children (the children-dirty flag is then not cleared);
otherwise process each child and clear the children-dirty flag as a
post-condition of the pass. -/
def drawChildrenW (t : Widget) (everything : Bool) : Widget :=
  match t with
  | .node p cs =>
    if cs.isEmpty then .node p cs
    else .node { p with childrenDirtyFlag := false } (drawList cs everything)

/-- One full draw traversal of a root widget, as `Screen::redraw`
performs it: `root->draw(...)` followed by `root->drawChildren(...)`. -/
def drawFull (t : Widget) (everything : Bool) : Widget :=
  drawChildrenW (drawW t) everything

/-! ### Tree operations at paths

The C++ mutates widgets through parent/child pointers.  In the tree
model an operation on a widget deep in a tree is addressed by the path
of child-list indices from the root. -/

/-- Replace the `i`-th element of a child list. -/
def modifyIdx : List Widget → Nat → (Widget → Widget) → List Widget
  | [], _, _ => []
  | c :: cs, 0, f => f c :: cs
  | c :: cs, n + 1, f => c :: modifyIdx cs n f

/-- Apply `f` to the subtree addressed by `path`. -/
def updateAt : Widget → List Nat → (Widget → Widget) → Widget
  | t, [], f => f t
  | .node p cs, i :: rest, f => .node p (modifyIdx cs i (fun c => updateAt c rest f))

/-- The widget record at `path`, if the path is valid. -/
def propsAt : Widget → List Nat → Option WProps
  | .node p _, [] => some p
  | .node _ cs, i :: rest =>
    match cs.get? i with
    | some c => propsAt c rest
    | none => none

/-- `Widget::addChild(toAdd, atStart)`, with the receiver addressed by
`path` and `toAdd` an unparented widget subtree.  Following Base.cpp:
after the argument validation (not reachable here: the argument is a
well-formed separate tree), `willMoveToParent`/`didMoveToParent` only
manage the animator registration, the child is inserted at the front
or back of the child list, and `updateChildData` recomputes the
transparency cache and sets the receiver's children-dirty flag.  No
other flag is touched and nothing is propagated to the receiver's own
ancestors. -/
def addChildAt (t : Widget) (path : List Nat) (toAdd : Widget) (atStart : Bool) : Widget :=
  updateAt t path fun w =>
    .node { w.props with childrenDirtyFlag := true }
      (if atStart then toAdd :: w.children else w.children ++ [toAdd])

/-- `Widget::removeChild` of the `idx`-th child of the widget at
`path`: the child is erased and `updateChildData` sets the receiver's
children-dirty flag (only when a removal actually occurred). -/
def removeChildAt (t : Widget) (path : List Nat) (idx : Nat) : Widget :=
  updateAt t path fun w =>
    if idx < w.children.length then
      .node { w.props with childrenDirtyFlag := true } (w.children.eraseIdx idx)
    else w

/-- `Widget::needsDisplay` on the widget at `path`: the widget's own
dirty flag is set, and `needsChildDisplay` walks the parent chain
setting the children-dirty flag on every ancestor up to the root. -/
def needsDisplayAt : Widget → List Nat → Widget
  | .node p cs, [] => .node { p with dirtyFlag := true } cs
  | .node p cs, i :: rest =>
    .node { p with childrenDirtyFlag := true }
      (modifyIdx cs i (fun c => needsDisplayAt c rest))

/-! ### Well-formedness predicates used by the theorems -/

mutual

/-- Does every widget in the tree have a clear inhibit-drawing flag? -/
def noInhibit : Widget → Bool
  | .node p cs => !p.inhibitDrawing && noInhibitList cs

/-- `noInhibit` over a forest. -/
def noInhibitList : List Widget → Bool
  | [] => true
  | c :: cs => noInhibit c && noInhibitList cs

end

mutual

/-- Is the whole tree clean after a full draw: every widget's
self-dirty flag is clear, and every widget that has at least one child
has its children-dirty flag clear?  (A childless widget can retain a
stale children-dirty flag: `drawChildren` returns early on an empty
child list.) -/
def allCleanButLeafChildFlags : Widget → Bool
  | .node p cs =>
    !p.dirtyFlag && (cs.isEmpty || !p.childrenDirtyFlag) && allCleanListButLeafChildFlags cs

/-- `allCleanButLeafChildFlags` over a forest. -/
def allCleanListButLeafChildFlags : List Widget → Bool
  | [] => true
  | c :: cs => allCleanButLeafChildFlags c && allCleanListButLeafChildFlags cs

end

mutual

/-- Is `isDirty()` false for every widget in the tree (both flags clear
everywhere)?  This is the reading of the draw-clears-dirty property in
the specification. -/
def allNotDirty : Widget → Bool
  | .node p cs => !(p.dirtyFlag || p.childrenDirtyFlag) && allNotDirtyList cs

/-- `allNotDirty` over a forest. -/
def allNotDirtyList : List Widget → Bool
  | [] => true
  | c :: cs => allNotDirty c && allNotDirtyList cs

end

mutual

/-- Rewrite the hidden and inhibit-drawing flags of every widget in a
tree according to the two per-id assignments, leaving ids, frames and
the tree shape unchanged. -/
def setVisFlags (hf hi : Nat → Bool) : Widget → Widget
  | .node p cs =>
    .node { p with hidden := hf p.wid, inhibitDrawing := hi p.wid }
      (setVisFlagsList hf hi cs)

/-- `setVisFlags` over a forest. -/
def setVisFlagsList (hf hi : Nat → Bool) : List Widget → List Widget
  | [] => []
  | c :: cs => setVisFlags hf hi c :: setVisFlagsList hf hi cs

end

mutual

/-- The records of all widgets in a tree, in preorder. -/
def allProps : Widget → List WProps
  | .node p cs => p :: allPropsList cs

/-- `allProps` over a forest. -/
def allPropsList : List Widget → List WProps
  | [] => []
  | c :: cs => allProps c ++ allPropsList cs

end

/-- `wantsTouchTracking()` of the widget with id `w` in the tree
(false if absent). -/
def tracksTouchOf (r : Widget) (w : Nat) : Bool :=
  (((allProps r).find? (fun p => p.wid == w)).map (fun p => p.tracksTouch)).getD false

/-! ## Event routing (`Screen::processEvents`, Screen.cpp)

The screen owns a root widget, a weak first-responder reference and a
weak touch-tracking reference.  Touch handlers are virtual methods on
widgets; their behaviour is modelled as an environment function from
widget id and event to the consumed flag. -/

/-- `event::Touch`: a position and the down state. -/
structure Touch where
  position : Point
  isDown : Bool
deriving Repr, DecidableEq

/-- `event::Button` (kind is `Select` or `Menu`). -/
structure BtnEvent where
  isMenu : Bool
  isDown : Bool
deriving Repr, DecidableEq

/-- The `std::variant` of input events. -/
inductive Event where
  | touch : Touch → Event
  | scroll : Int → Event
  | button : BtnEvent → Event
deriving Repr, DecidableEq

/-- The fixed data the router consults: the root widget (may be
absent) and the per-widget `handleTouchEvent` behaviour. -/
structure RouterEnv where
  root : Option Widget
  handles : Nat → Touch → Bool

/-- The mutable routing state: the touch-tracking binding and the
first responder (both weak references in the C++). -/
structure RouterState where
  tracking : Option Nat
  firstResponder : Option Nat
deriving Repr, DecidableEq

/-- `this->touchTrackingWidget.lock()`: the tracking binding dangles
(locks to null) when the widget no longer exists; in the model a
widget is alive exactly when its id occurs in the root's tree. -/
def lockTracking (env : RouterEnv) (s : RouterState) : Option Nat :=
  match s.tracking with
  | some w =>
    match env.root with
    | some r => if w ∈ wids r then some w else none
    | none => none
  | none => none

/-- The `beach:` label of the touch branch: on any touch event that is
not in the down state, the tracking binding is cleared regardless of
how the event was routed.  The second component is the list of widgets
the event was offered to, in order. -/
def beachStep (s : RouterState) (e : Touch) (tr : List Nat) : RouterState × List Nat :=
  (if e.isDown then s else { s with tracking := none }, tr)

/-- The final fallback: a still-unconsumed touch event is offered to
the first responder, its result ignored. -/
def touchRespond (s : RouterState) (e : Touch) (tr : List Nat) : RouterState × List Nat :=
  match s.firstResponder with
  | some fr => beachStep s e (tr ++ [fr])
  | none => beachStep s e tr

/-- The hit-test phase of the touch branch: find the widget under the
event's position starting at the root; if it consumes the event and no
tracking was active at dispatch (`wantNewTrackingWidget`) and it opts
into touch tracking, bind it as the new tracking widget. -/
def touchHitTest (env : RouterEnv) (s : RouterState) (e : Touch) (wantNew : Bool)
    (tr : List Nat) : RouterState × List Nat :=
  match env.root with
  | some r =>
    match findChildAt r e.position with
    | some (tw, _) =>
      if env.handles tw e then
        beachStep
          (if wantNew && tracksTouchOf r tw then { s with tracking := some tw } else s)
          e (tr ++ [tw])
      else touchRespond s e (tr ++ [tw])
    | none => touchRespond s e tr
  | none => touchRespond s e tr

/-- The touch branch of `Screen::processEvents` for one dequeued
event: try the live tracking widget first; if it consumes the event,
stop; otherwise hit-test from the root; finally fall back to the first
responder; and clear the binding on any touch-up. -/
def processTouch (env : RouterEnv) (s : RouterState) (e : Touch) : RouterState × List Nat :=
  match lockTracking env s with
  | some w =>
    if env.handles w e then beachStep s e [w]
    else touchHitTest env s e false [w]
  | none => touchHitTest env s e true []

/-- Process a list of touch events in order, collecting the
offered-widget list of each event. -/
def processTouches (env : RouterEnv) (s : RouterState) :
    List Touch → RouterState × List (List Nat)
  | [] => (s, [])
  | e :: es =>
    let r1 := processTouch env s e
    let r2 := processTouches env r1.1 es
    (r2.1, r1.2 :: r2.2)

/-- Dispatch of one dequeued event of any kind: button events go to
the first responder and otherwise to the default handling (which only
logs); scroll events go to the first responder only, result ignored. -/
def processEvent (env : RouterEnv) (s : RouterState) : Event → RouterState × List Nat
  | .touch t => processTouch env s t
  | .button _ =>
    match s.firstResponder with
    | some fr => (s, [fr])
    | none => (s, [])
  | .scroll _ =>
    match s.firstResponder with
    | some fr => (s, [fr])
    | none => (s, [])

/-- Dispatch a whole queue in FIFO order. -/
def processQueue (env : RouterEnv) (s : RouterState) :
    List Event → RouterState × List (List Nat)
  | [] => (s, [])
  | e :: es =>
    let r1 := processEvent env s e
    let r2 := processQueue env r1.1 es
    (r2.1, r1.2 :: r2.2)

/-- The event-relevant state of a `Screen`: the pending queue, the
events-inhibited bit and the routing state. -/
structure ScreenEvState where
  queue : List Event
  eventsInhibited : Bool
  router : RouterState
deriving Repr, DecidableEq

/-- `Screen::queueEvent(event, atEnd)`: thread-safe insertion at the
tail (normal) or head (priority) of the pending queue.  Insertion is
not gated on the inhibited bit. -/
def queueEvent (s : ScreenEvState) (e : Event) (atEnd : Bool) : ScreenEvState :=
  { s with queue := if atEnd then s.queue ++ [e] else e :: s.queue }

/-- `Screen::processEvents()`: under the queue lock, if events are
inhibited the whole pending queue is simply cleared and nothing is
dispatched; otherwise every queued event is routed in FIFO order.  The
second component is the per-event offered-widget log (empty when no
handler was invoked at all). -/
def processEvents (env : RouterEnv) (s : ScreenEvState) :
    ScreenEvState × List (List Nat) :=
  if s.eventsInhibited then ({ s with queue := [] }, [])
  else
    let r := processQueue env s.router s.queue
    ({ s with queue := [], router := r.1 }, r.2)

/-! ## View controllers (`src/ViewController.cpp`,
`include/shittygui/ViewController.h`) -/

/-- `ViewController::PresentationAnimation`. -/
inductive PresentationAnimation where
  | none
  | slideUp
deriving Repr, DecidableEq

/-- The animation bookkeeping of a view controller (`AnimationInfo`):
the kind of the running transition, whether it is a presentation (as
opposed to a dismissal) and whether an animator callback is active. -/
structure VCAnim where
  type : PresentationAnimation
  presentation : Bool
  isActive : Bool
deriving Repr, DecidableEq

/-- The presentation state of a view controller: whether
`this->presenting` (the strong reference to the currently presented
child controller) is set, together with the animation bookkeeping.
The widget-tree side effects of presenting (frame setup, `addChild`,
draw inhibition of the obscured siblings) act on the widget model
above and are not duplicated here. -/
structure VCState where
  presenting : Bool
  anim : VCAnim
deriving Repr, DecidableEq

/-- The errors a presentation operation reports synchronously. -/
inductive VCError where
  | invalidArgument
  | alreadyPresenting
  | notPresenting
deriving Repr, DecidableEq

/-- `ViewController::presentViewController(vc, anim)`: a null child is
an invalid-argument error; presenting while `this->presenting` is
already set is a usage error raised before any state is touched.
Otherwise the child is recorded as the active presentation with the
animation bookkeeping set for a presentation (an animator callback is
registered exactly when the transition is animated). -/
def presentViewController (s : VCState) (vcValid : Bool)
    (anim : PresentationAnimation) : Except VCError VCState :=
  if !vcValid then .error .invalidArgument
  else if s.presenting then .error .alreadyPresenting
  else .ok { presenting := true,
             anim := { type := anim, presentation := true,
                       isActive := anim != PresentationAnimation.none } }

/-- `ViewController::dismissViewController(anim)`: dismissing while
nothing is presented is a usage error raised before any state is
touched.  A non-animated dismissal finalizes immediately
(`dismissFinalize` clears the presented-child reference); an animated
one keeps the child until the transition completes. -/
def dismissViewController (s : VCState)
    (anim : PresentationAnimation) : Except VCError VCState :=
  if !s.presenting then .error .notPresenting
  else if anim = PresentationAnimation.none then
    .ok { presenting := false,
          anim := { type := anim, presentation := false, isActive := false } }
  else
    .ok { s with anim := { type := anim, presentation := false, isActive := true } }

/-! ### The animated slide transition (`ViewController::processAnimationFrame`)

The per-frame step measures the elapsed wall-clock time, converts it
into a percentage of `kPresentationAnimationDuration`, shapes it with
`EasingFunctions::InOutQuad` and recomputes the presented widget's
frame origin.  The `double` arithmetic is modelled over the rationals;
the elapsed time is the parameter. -/

/-- `ViewController::kPresentationAnimationDuration` = `.35`. -/
def kPresentationAnimationDuration : ℚ := 35 / 100

/-- `EasingFunctions::InOutQuad(t)` = `t < 0.5 ? 2*t*t : t*(4-2*t)-1`
(EasingFunctions.h). -/
def inOutQuad (t : ℚ) : ℚ :=
  if t < 1 / 2 then 2 * t * t else t * (4 - 2 * t) - 1

/-- `percent = std::min(diff.count() / kPresentationAnimationDuration, 1.)`. -/
def animationPercent (elapsed : ℚ) : ℚ :=
  min (elapsed / kPresentationAnimationDuration) 1

/-- The value assigned to `widgetFrame.origin.y` for a `SlideUp`
transition: `height * (presentation ? (1 - frac) : frac)` where
`frac = InOutQuad(percent)` and `height` is the presenter's bounds
height. -/
def slideUpFrameY (boundsHeight : ℚ) (presentation : Bool) (elapsed : ℚ) : ℚ :=
  boundsHeight *
    (if presentation then 1 - inOutQuad (animationPercent elapsed)
     else inOutQuad (animationPercent elapsed))

/-- The `int16_t` value actually stored in the frame origin after the
narrowing conversion from the double. -/
def slideUpStoredY (boundsHeight : ℚ) (presentation : Bool) (elapsed : ℚ) : Int :=
  wrapS16 (truncQ (slideUpFrameY boundsHeight presentation elapsed))

/-- Modelled from the spec (§4.4): the per-frame transition rule in the
spec's own words — "compute elapsed time as a fraction of a fixed
duration (documented as 0.35 time units, using an ease-in-out-quadratic
shaping function: `t<0.5 ? 2t² : t(4-2t)-1`), clamp to [0,1], and set
the transitioning widget's vertical origin to `height × (1 − fraction)`
for presentation or `height × fraction` for dismissal".  This second
definition exists to be compared with the source-derived
`slideUpFrameY`. -/
def specSlideY (height : ℚ) (presentation : Bool) (elapsed : ℚ) : ℚ :=
  let t := max 0 (min (elapsed / (35 / 100)) 1)
  let f := if t < 1 / 2 then 2 * t ^ 2 else t * (4 - 2 * t) - 1
  if presentation then height * (1 - f) else height * f

/-! ## Pointer-level model of `Widget::addChild` (Base.cpp)

The move-semantics claim is about object identity: whether a widget
that already sits in one parent's child list is detached from it when
added to another parent.  The tree model above cannot express the
aliasing, so the parent/child pointers are modelled directly: a store
maps widget ids to records holding the parent back-reference and the
child-id list. -/

/-- The pointer fields of one widget object. -/
structure WidgetRec where
  parent : Option Nat
  childIds : List Nat
  childrenDirtyFlag : Bool
deriving Repr, DecidableEq

/-- A widget store (heap): an association of ids to records. -/
def WStore := List (Nat × WidgetRec)

/-- Read a record (defaulting for absent ids). -/
def getRec (st : WStore) (i : Nat) : WidgetRec :=
  (st.lookup i).getD { parent := none, childIds := [], childrenDirtyFlag := false }

/-- Overwrite the record of id `i`. -/
def setRec (st : WStore) (i : Nat) (r : WidgetRec) : WStore :=
  st.map fun x => if x.1 = i then (i, r) else x

/-- `Widget::addChild(toAdd, atStart)` at the pointer level, on
receiver `self`: a null pointer or the receiver itself is rejected;
otherwise `willMoveToParent` runs (animator bookkeeping only), the
child id is inserted at the front or back of the receiver's child
list, the child's parent back-reference is repointed at the receiver,
`didMoveToParent` runs (animator bookkeeping only) and
`updateChildData` marks the receiver's children-dirty flag.  Nothing
removes the child from a previous parent's child list. -/
def addChildStore (st : WStore) (self : Nat) (toAdd : Option Nat)
    (atStart : Bool) : Except VCError WStore :=
  match toAdd with
  | none => .error .invalidArgument
  | some a =>
    if a = self then .error .invalidArgument
    else
      let r := getRec st self
      let st1 := setRec st self
        { r with childIds := if atStart then a :: r.childIds else r.childIds ++ [a] }
      let st2 := setRec st1 a { getRec st1 a with parent := some self }
      let st3 := setRec st2 self { getRec st2 self with childrenDirtyFlag := true }
      .ok st3

/-- How many records of the store list widget `a` among their
children. -/
def childListsContaining (st : WStore) (a : Nat) : Nat :=
  (st.filter fun x => a ∈ x.2.childIds).length

/-! ## The dirty-propagation invariant and concrete scenarios -/

mutual

/-- Does some widget in the tree have its self-dirty flag set? -/
def anySelfDirty : Widget → Bool
  | .node p cs => p.dirtyFlag || anySelfDirtyList cs

/-- `anySelfDirty` over a forest. -/
def anySelfDirtyList : List Widget → Bool
  | [] => false
  | c :: cs => anySelfDirty c || anySelfDirtyList cs

end

mutual

/-- The dirty-propagation invariant: every widget that has a
self-dirty strict descendant has its children-dirty flag set.  This is
equivalent to: for every widget W with the self-dirty flag set, every
ancestor of W has the children-dirty flag set. -/
def dirtyAncestorInvariant : Widget → Bool
  | .node p cs =>
    (!anySelfDirtyList cs || p.childrenDirtyFlag) && dirtyAncestorInvariantList cs

/-- `dirtyAncestorInvariant` over a forest. -/
def dirtyAncestorInvariantList : List Widget → Bool
  | [] => true
  | c :: cs => dirtyAncestorInvariant c && dirtyAncestorInvariantList cs

end

/-- An 800×480 root frame. -/
def demoRootFrame : Rect := ⟨⟨0, 0⟩, ⟨800, 480⟩⟩

/-- A 100×100 frame at the origin. -/
def demoPanelFrame : Rect := ⟨⟨0, 0⟩, ⟨100, 100⟩⟩

/-- A 50×50 frame at (10, 10). -/
def demoItemFrame : Rect := ⟨⟨10, 10⟩, ⟨50, 50⟩⟩

/-- The dirty-propagation scenario: build root (id 0) with child (id
1), run one full draw so every flag is clear, then add a freshly
constructed (hence self-dirty) widget (id 2) below the interior node.
All steps use only the public operations named by the invariant. -/
def dirtyPropScenario : Widget :=
  addChildAt (drawFull (addChildAt (newWidget 0 demoRootFrame) [] (newWidget 1 demoPanelFrame) false) true)
    [0] (newWidget 2 demoItemFrame) false

/-- The draw-clears-dirty scenario: a root that had a child and then
lost it through `removeChild` (which sets the children-dirty flag on
the now childless root). -/
def leafStaleFlagScenario : Widget :=
  removeChildAt (addChildAt (newWidget 0 demoRootFrame) [] (newWidget 1 demoPanelFrame) false) [] 0

/-- A widget record for the concrete hit-test trees. -/
def mkProps (wid : Nat) (frame : Rect) (tracks hid inh : Bool) : WProps :=
  { wid := wid, frame := frame, dirtyFlag := false, childrenDirtyFlag := false,
    inhibitDrawing := inh, hidden := hid, tracksTouch := tracks }

/-- The first-added of two overlapping siblings (id 1). -/
def overlapChildA : Widget :=
  .node (mkProps 1 ⟨⟨10, 10⟩, ⟨100, 100⟩⟩ false false false) []

/-- The later-added of two overlapping siblings (id 2).  It opts into
touch tracking and has both its hidden and inhibit-drawing flags set. -/
def overlapChildB : Widget :=
  .node (mkProps 2 ⟨⟨50, 50⟩, ⟨100, 100⟩⟩ true true true) []

/-- A root with the two overlapping children: id 1 added first, id 2
added second (later, so visually topmost). -/
def overlapTree : Widget :=
  .node (mkProps 0 demoRootFrame false false false) [overlapChildA, overlapChildB]

/-- A router environment over `overlapTree` in which exactly widget 2
consumes touch events. -/
def demoEnv : RouterEnv := ⟨some overlapTree, fun w _ => w == 2⟩

/-- An idle routing state with first responder id 9. -/
def demoIdle : RouterState := ⟨none, some 9⟩

/-- The pointer store for the move-semantics scenario: widget 0 (P1)
owns widget 2 (W) as its only child; widget 1 (P2) is childless. -/
def moveStore : WStore :=
  [(0, { parent := none, childIds := [2], childrenDirtyFlag := false }),
   (1, { parent := none, childIds := [], childrenDirtyFlag := false }),
   (2, { parent := some 0, childIds := [], childrenDirtyFlag := false })]

/-- The store after `P2.addChild(W)`, i.e. `addChildStore moveStore 1
(some 2) false`, extracted from the `Except`. -/
def moveStoreAfter : WStore :=
  match addChildStore moveStore 1 (some 2) false with
  | .ok st => st
  | .error _ => []

/-! ## Helper lemmas -/

/-- Truncation toward zero is the identity on integers. -/
theorem truncQ_intCast (n : Int) : truncQ (n : ℚ) = n := by
  unfold truncQ
  split <;> simp

/-- The `int16_t` wrap is the identity on in-range values. -/
theorem wrapS16_eq_self (n : Int) (h1 : -32768 ≤ n) (h2 : n ≤ 32767) :
    wrapS16 n = n := by
  unfold wrapS16
  omega

/-- The `uint16_t` wrap of a moderately negative value lands exactly
one period above it. -/
theorem wrapU16_of_neg (v : Int) (h1 : -65536 ≤ v) (h2 : v < 0) :
    (wrapU16 v : Int) = v + 65536 := by
  unfold wrapU16
  omega

/-- The `uint16_t` wrap is the identity on in-range values. -/
theorem wrapU16_of_nonneg (v : Int) (h1 : 0 ≤ v) (h2 : v < 65536) :
    (wrapU16 v : Int) = v := by
  unfold wrapU16
  omega

/-! ## C9: inset with oversized amounts -/

/-- Claim C9 as stated is false: the size fields are `uint16_t`, so
the over-inset rectangle's size is never negative — it wraps.  At
`r = {(0,0), 4×4}` and `dX = dY = 3` (positive, with `2·3 > 4`) the
claim predicts width `-2`; the code stores `65534`. -/
theorem inset_negative_size_counterexample :
    ¬ (((Rect.inset ⟨⟨0, 0⟩, ⟨4, 4⟩⟩ 3 3).size.width : Int) < 0) ∧
      (Rect.inset ⟨⟨0, 0⟩, ⟨4, 4⟩⟩ 3 3).size.width = 65534 ∧
      (Rect.inset ⟨⟨0, 0⟩, ⟨4, 4⟩⟩ 3 3).origin = ⟨3, 3⟩ := by
  have hw : ((4 : ℕ) : ℚ) - (3 : ℚ) * 2 = ((-2 : Int) : ℚ) := by norm_num
  have hx : ((0 : Int) : ℚ) + (3 : ℚ) = ((3 : Int) : ℚ) := by norm_num
  refine ⟨?_, ?_, ?_⟩
  · simp only [Rect.inset, hw, truncQ_intCast]
    decide
  · simp only [Rect.inset, hw, truncQ_intCast]
    decide
  · simp only [Rect.inset, hx, hw, truncQ_intCast]
    constructor

/-- Claim C9, amended: for positive integer inset amounts `dX`, `dY`
with `2·dX > width` or `2·dY > height` (each amount within one wrap
period of its axis, the size fields in their `uint16_t` range and the
shifted origin within the `int16_t` range), `Rect::inset` performs no
clamping and never produces a negative size: the origin is shifted by
exactly `(dX, dY)`, an over-inset axis stores the wrapped extent
`2^16 + extent − 2·amount` (a modulo-2^16 value, positive rather than
negative, since the size fields are unsigned), and an axis that is not
over-inset stores the ordinary shrunken extent `extent − 2·amount`.
The restriction to integer amounts is forced by the original claim
itself: the origin fields are integers, so "the origin is shifted by
exactly `(dX, dY)`" is only satisfiable for integral amounts — the
`int16_t` narrowing truncates fractional shifts. -/
theorem inset_overflow_wraps (r : Rect) (dX dY : ℕ)
    (_hpos : 0 < dX ∧ 0 < dY)
    (_hover : (r.size.width : Int) < 2 * dX ∨ (r.size.height : Int) < 2 * dY)
    (hwlt : r.size.width < 65536) (hhlt : r.size.height < 65536)
    (hwb : 2 * (dX : Int) ≤ 65536 + r.size.width)
    (hhb : 2 * (dY : Int) ≤ 65536 + r.size.height)
    (hx1 : -32768 ≤ r.origin.x + dX) (hx2 : r.origin.x + dX ≤ 32767)
    (hy1 : -32768 ≤ r.origin.y + dY) (hy2 : r.origin.y + dY ≤ 32767) :
    (Rect.inset r dX dY).origin.x = r.origin.x + dX ∧
    (Rect.inset r dX dY).origin.y = r.origin.y + dY ∧
    ((Rect.inset r dX dY).size.width : Int)
        = (if (r.size.width : Int) < 2 * dX
           then 65536 + (r.size.width : Int) - 2 * (dX : Int)
           else (r.size.width : Int) - 2 * (dX : Int)) ∧
    ((Rect.inset r dX dY).size.height : Int)
        = (if (r.size.height : Int) < 2 * dY
           then 65536 + (r.size.height : Int) - 2 * (dY : Int)
           else (r.size.height : Int) - 2 * (dY : Int)) ∧
    (0 : Int) ≤ ((Rect.inset r dX dY).size.width : Int) ∧
    (0 : Int) ≤ ((Rect.inset r dX dY).size.height : Int) := by
  have ex : (r.origin.x : ℚ) + (dX : ℚ) = ((r.origin.x + (dX : Int) : Int) : ℚ) := by
    push_cast; ring
  have ey : (r.origin.y : ℚ) + (dY : ℚ) = ((r.origin.y + (dY : Int) : Int) : ℚ) := by
    push_cast; ring
  have ew : (r.size.width : ℚ) - (dX : ℚ) * 2
      = (((r.size.width : Int) - 2 * dX : Int) : ℚ) := by push_cast; ring
  have eh : (r.size.height : ℚ) - (dY : ℚ) * 2
      = (((r.size.height : Int) - 2 * dY : Int) : ℚ) := by push_cast; ring
  refine ⟨?_, ?_, ?_, ?_, ?_, ?_⟩
  · show wrapS16 (truncQ ((r.origin.x : ℚ) + (dX : ℚ))) = r.origin.x + dX
    rw [ex, truncQ_intCast, wrapS16_eq_self _ hx1 hx2]
  · show wrapS16 (truncQ ((r.origin.y : ℚ) + (dY : ℚ))) = r.origin.y + dY
    rw [ey, truncQ_intCast, wrapS16_eq_self _ hy1 hy2]
  · show (wrapU16 (truncQ ((r.size.width : ℚ) - (dX : ℚ) * 2)) : Int)
        = (if (r.size.width : Int) < 2 * dX
           then 65536 + (r.size.width : Int) - 2 * (dX : Int)
           else (r.size.width : Int) - 2 * (dX : Int))
    rw [ew, truncQ_intCast]
    by_cases hlt : (r.size.width : Int) < 2 * dX
    · rw [if_pos hlt, wrapU16_of_neg _ (by omega) (by omega)]
      ring
    · rw [if_neg hlt, wrapU16_of_nonneg _ (by omega) (by omega)]
  · show (wrapU16 (truncQ ((r.size.height : ℚ) - (dY : ℚ) * 2)) : Int)
        = (if (r.size.height : Int) < 2 * dY
           then 65536 + (r.size.height : Int) - 2 * (dY : Int)
           else (r.size.height : Int) - 2 * (dY : Int))
    rw [eh, truncQ_intCast]
    by_cases hlt : (r.size.height : Int) < 2 * dY
    · rw [if_pos hlt, wrapU16_of_neg _ (by omega) (by omega)]
      ring
    · rw [if_neg hlt, wrapU16_of_nonneg _ (by omega) (by omega)]
  · exact Int.natCast_nonneg _
  · exact Int.natCast_nonneg _

/-- Witness for `inset_overflow_wraps` at `r = {(0,0), 4×100}`,
`dX = 3`, `dY = 1`: a single-axis over-inset — the width wraps to
65534 while the height shrinks normally to 98. -/
theorem inset_overflow_wraps_witness :
    ((0 : ℕ) < 3 ∧ (0 : ℕ) < 1) ∧
    (((4 : ℕ) : Int) < 2 * (3 : ℕ) ∨ ((100 : ℕ) : Int) < 2 * (1 : ℕ)) ∧
    ((Rect.inset ⟨⟨0, 0⟩, ⟨4, 100⟩⟩ 3 1).origin.x = 0 + (3 : ℕ) ∧
     (Rect.inset ⟨⟨0, 0⟩, ⟨4, 100⟩⟩ 3 1).origin.y = 0 + (1 : ℕ) ∧
     ((Rect.inset ⟨⟨0, 0⟩, ⟨4, 100⟩⟩ 3 1).size.width : Int)
         = (if ((4 : ℕ) : Int) < 2 * (3 : ℕ)
            then 65536 + ((4 : ℕ) : Int) - 2 * ((3 : ℕ) : Int)
            else ((4 : ℕ) : Int) - 2 * ((3 : ℕ) : Int)) ∧
     ((Rect.inset ⟨⟨0, 0⟩, ⟨4, 100⟩⟩ 3 1).size.height : Int)
         = (if ((100 : ℕ) : Int) < 2 * (1 : ℕ)
            then 65536 + ((100 : ℕ) : Int) - 2 * ((1 : ℕ) : Int)
            else ((100 : ℕ) : Int) - 2 * ((1 : ℕ) : Int)) ∧
     (0 : Int) ≤ ((Rect.inset ⟨⟨0, 0⟩, ⟨4, 100⟩⟩ 3 1).size.width : Int) ∧
     (0 : Int) ≤ ((Rect.inset ⟨⟨0, 0⟩, ⟨4, 100⟩⟩ 3 1).size.height : Int)) :=
  ⟨by decide, by decide,
    inset_overflow_wraps ⟨⟨0, 0⟩, ⟨4, 100⟩⟩ 3 1 (by decide) (by decide) (by decide)
      (by decide) (by decide) (by decide) (by decide) (by decide) (by decide) (by decide)⟩

/-! ## C2: the animated slide transition -/

/-- Claim C2: the per-frame step of an animated slide-up transition
computes the elapsed-time fraction of the 0.35-unit duration clamped
to [0,1], shapes it with the ease-in-out-quadratic function
`t < 0.5 ? 2t² : t(4−2t)−1`, and sets the transitioning widget's frame
origin.y to `height·(1−f(t))` for a presentation and `height·f(t)`
for a dismissal: the source-derived per-frame value `slideUpFrameY`
coincides with the spec-worded rule `specSlideY` whenever the elapsed
time is non-negative (the code clamps only from above, which agrees
with the spec's [0,1] clamp on non-negative elapsed times). -/
theorem slide_transition_matches_spec (h elapsed : ℚ) (p : Bool)
    (he : 0 ≤ elapsed) :
    slideUpFrameY h p elapsed = specSlideY h p elapsed := by
  have h1 : (0 : ℚ) ≤ elapsed / (35 / 100) := by positivity
  have h2 : max 0 (min (elapsed / (35 / 100)) 1) = min (elapsed / (35 / 100)) 1 :=
    max_eq_right (le_min h1 zero_le_one)
  unfold slideUpFrameY specSlideY animationPercent inOutQuad kPresentationAnimationDuration
  rw [h2]
  cases p <;> simp only [Bool.false_eq_true, if_false, if_true] <;> split <;> ring

/-- Witness for `slide_transition_matches_spec` at height 480, a
presentation, elapsed time 7/40 (half the duration). -/
theorem slide_transition_matches_spec_witness :
    (0 : ℚ) ≤ 7 / 40 ∧ slideUpFrameY 480 true (7 / 40) = specSlideY 480 true (7 / 40) :=
  ⟨by norm_num, slide_transition_matches_spec 480 (7 / 40) true (by norm_num)⟩

/-! ## C7: presentation mutual exclusion -/

/-- Claim C7: presenting while a child is already presented raises a
usage error (`std::runtime_error`, before any state is touched, so the
presentation state is unchanged), and dismissing while nothing is
presented likewise raises a usage error. -/
theorem present_dismiss_usage_errors (s : VCState) (v : Bool)
    (a b : PresentationAnimation)
    (hp : s.presenting = true) (s2 : VCState) (hn : s2.presenting = false) :
    presentViewController s v a =
      .error (if v then VCError.alreadyPresenting else VCError.invalidArgument) ∧
    dismissViewController s2 b = .error .notPresenting := by
  constructor
  · cases v <;> simp [presentViewController, hp]
  · simp [dismissViewController, hn]

/-- Witness for `present_dismiss_usage_errors`: a controller that is
presenting rejects a second present; an idle one rejects a dismissal. -/
theorem present_dismiss_usage_errors_witness :
    (VCState.mk true ⟨.none, true, false⟩).presenting = true ∧
    (VCState.mk false ⟨.none, false, false⟩).presenting = false ∧
    (presentViewController ⟨true, ⟨.none, true, false⟩⟩ true .slideUp =
        .error (if true then VCError.alreadyPresenting else VCError.invalidArgument) ∧
      dismissViewController ⟨false, ⟨.none, false, false⟩⟩ .slideUp = .error .notPresenting) :=
  ⟨rfl, rfl,
    present_dismiss_usage_errors ⟨true, ⟨.none, true, false⟩⟩ true .slideUp .slideUp rfl
      ⟨false, ⟨.none, false, false⟩⟩ rfl⟩

/-! ## C8: queue clearing while events are inhibited -/

/-- Fields of the screen state other than the queue are untouched by
`queueEvent`. -/
theorem queueEvent_fields (s : ScreenEvState) (e : Event) (b : Bool) :
    (queueEvent s e b).eventsInhibited = s.eventsInhibited ∧
      (queueEvent s e b).router = s.router := ⟨rfl, rfl⟩

/-- `queueEvent` folded over a list only changes the queue. -/
theorem queueEvents_fields (es : List (Event × Bool)) :
    ∀ (s : ScreenEvState),
      (es.foldl (fun t eb => queueEvent t eb.1 eb.2) s).eventsInhibited
          = s.eventsInhibited ∧
        (es.foldl (fun t eb => queueEvent t eb.1 eb.2) s).router = s.router := by
  induction es with
  | nil => intro s; exact ⟨rfl, rfl⟩
  | cons eb es ih =>
    intro s
    simpa [queueEvent] using ih { s with queue := _ }

/-- Claim C8: while the screen is events-inhibited, no queued event is
ever delivered to any widget: `processEvents` clears the whole pending
queue in bulk (including any events added by `queueEvent` during the
inhibited period) without invoking a single handler — the dispatch log
is empty — instead of holding the events for delivery after
inhibition ends. -/
theorem inhibited_events_dropped (env : RouterEnv) (s : ScreenEvState)
    (es : List (Event × Bool)) (h : s.eventsInhibited = true) :
    processEvents env (es.foldl (fun t eb => queueEvent t eb.1 eb.2) s) =
      ({ s with queue := [] }, []) := by
  obtain ⟨h1, h2⟩ := queueEvents_fields es s
  unfold processEvents
  rw [h1, h2, h]
  simp

/-- Witness for `inhibited_events_dropped`: an inhibited screen with a
pending touch event and one more event queued on top. -/
theorem inhibited_events_dropped_witness :
    (ScreenEvState.mk [Event.scroll 1] true demoIdle).eventsInhibited = true ∧
    processEvents demoEnv
        ([(Event.touch ⟨⟨60, 60⟩, true⟩, true)].foldl
          (fun t eb => queueEvent t eb.1 eb.2)
          (ScreenEvState.mk [Event.scroll 1] true demoIdle)) =
      ({ ScreenEvState.mk [Event.scroll 1] true demoIdle with queue := [] }, []) :=
  ⟨rfl, inhibited_events_dropped demoEnv (ScreenEvState.mk [Event.scroll 1] true demoIdle)
    [(Event.touch ⟨⟨60, 60⟩, true⟩, true)] rfl⟩

/-! ## C3: addChild move semantics (pointer level) -/

/-- Claim C3 is violated by the code: adding a widget that already has
a parent does not detach it first.  Starting from `P1 = 0` owning
`W = 2` and `P2 = 1` childless, `P2.addChild(W)` succeeds and leaves
`W` in both child lists (`P1` keeps a stale entry) while `W`'s parent
back-reference now names `P2`: the widget is in two child lists, not
exactly one. -/
theorem addChild_keeps_stale_entry :
    addChildStore moveStore 1 (some 2) false = .ok moveStoreAfter ∧
    (getRec moveStoreAfter 0).childIds = [2] ∧
    (getRec moveStoreAfter 1).childIds = [2] ∧
    (getRec moveStoreAfter 2).parent = some 1 ∧
    childListsContaining moveStoreAfter 2 = 2 := by
  refine ⟨rfl, rfl, rfl, rfl, rfl⟩

/-! ## C1: the dirty-propagation invariant -/

/-- Claim C1 is violated by the code: in `dirtyPropScenario` — root 0
with interior child 1, fully drawn (all flags clear), then a freshly
constructed (self-dirty) widget 2 added below widget 1 using only the
public operations — widget 2 is self-dirty and its immediate parent
has the children-dirty flag (set by `updateChildData`), but the root
ancestor does not: `addChild` never propagates `needsChildDisplay`
upward, so the invariant fails. -/
theorem dirty_propagation_broken_by_addChild :
    dirtyAncestorInvariant dirtyPropScenario = false ∧
    (propsAt dirtyPropScenario [0, 0]).map (fun p => p.dirtyFlag) = some true ∧
    (propsAt dirtyPropScenario [0]).map (fun p => p.childrenDirtyFlag) = some true ∧
    (propsAt dirtyPropScenario []).map (fun p => p.childrenDirtyFlag) = some false := by
  refine ⟨rfl, rfl, rfl, rfl⟩

/-! ## C4: draw-clears-dirty -/

/-- Claim C4 as stated is false: after removing the only child of a
root (`removeChild` sets the children-dirty flag of the now childless
root), one full draw traversal with `everything = true` leaves
`isDirty()` true — `drawChildren` returns early on an empty child list
without clearing the flag. -/
theorem draw_clears_dirty_counterexample :
    Widget.isDirty (drawFull leafStaleFlagScenario true) = true ∧
    allNotDirty (drawFull leafStaleFlagScenario true) = false := by
  exact ⟨rfl, rfl⟩

mutual

/-- After a full-`everything` pass over a non-root widget of the
traversal, the widget and its whole subtree are clean except possibly
for stale children-dirty flags on childless widgets. -/
theorem drawNode_clears : ∀ (c : Widget), noInhibit c = true →
    allCleanButLeafChildFlags (drawNode c true) = true
  | .node p cs, h => by
    rw [noInhibit] at h
    obtain ⟨hp, hcs⟩ := Bool.and_eq_true_iff.mp h
    rw [drawNode]
    rw [Bool.not_eq_true'] at hp
    rw [if_neg (by rw [hp]; exact Bool.false_ne_true)]
    simp only [Bool.or_true, if_true]
    by_cases he : cs.isEmpty = true
    · rw [if_pos he]
      rw [List.isEmpty_iff] at he
      subst he
      rfl
    · rw [if_neg he]
      rw [allCleanButLeafChildFlags]
      simp only [Bool.not_false, Bool.and_eq_true]
      exact ⟨⟨by simp, by simp⟩, drawList_clears cs hcs⟩

/-- `drawNode_clears` over a child list. -/
theorem drawList_clears : ∀ (cs : List Widget), noInhibitList cs = true →
    allCleanListButLeafChildFlags (drawList cs true) = true
  | [], _ => rfl
  | c :: rest, h => by
    rw [noInhibitList] at h
    obtain ⟨hc, hrest⟩ := Bool.and_eq_true_iff.mp h
    rw [drawList, allCleanListButLeafChildFlags]
    exact Bool.and_eq_true_iff.mpr ⟨drawNode_clears c hc, drawList_clears rest hrest⟩

end

/-- Claim C4, amended: for every widget tree containing no
draw-inhibited widget, one full draw traversal of the root with
`everything = true` clears the self-dirty flag of every widget and the
children-dirty flag of every widget that has at least one child.  (A
childless widget whose children-dirty flag was set — e.g. after
`removeChild` removed its last child — retains it, because
`drawChildren` returns early on an empty child list; so `isDirty()`
is not necessarily false for such widgets, contrary to the original
claim.) -/
theorem draw_clears_dirty_amended (t : Widget) (h : noInhibit t = true) :
    allCleanButLeafChildFlags (drawFull t true) = true := by
  obtain ⟨p, cs⟩ := t
  rw [noInhibit] at h
  obtain ⟨_, hcs⟩ := Bool.and_eq_true_iff.mp h
  rw [drawFull, drawW, drawChildrenW]
  by_cases he : cs.isEmpty = true
  · rw [if_pos he]
    rw [List.isEmpty_iff] at he
    subst he
    rfl
  · rw [if_neg he]
    rw [allCleanButLeafChildFlags]
    simp only [Bool.not_false, Bool.and_eq_true]
    exact ⟨⟨by simp, by simp⟩, drawList_clears cs hcs⟩

/-- Witness for `draw_clears_dirty_amended` on the concrete scenario
tree (no inhibited widgets, one dirty leaf). -/
theorem draw_clears_dirty_amended_witness :
    noInhibit dirtyPropScenario = true ∧
      allCleanButLeafChildFlags (drawFull dirtyPropScenario true) = true :=
  ⟨rfl, draw_clears_dirty_amended dirtyPropScenario rfl⟩

mutual

/-- A successful hit test resolves to a widget of the searched tree. -/
theorem findChildAt_wid_mem : ∀ (t : Widget) (pt : Point) (r : Nat × Point),
    findChildAt t pt = some r → r.1 ∈ wids t
  | .node p cs, pt, r => by
    intro h
    rw [findChildAt] at h
    split at h
    · rw [wids]
      cases hrev : findChildRev cs pt with
      | some r2 =>
        rw [hrev] at h
        cases h
        exact List.mem_cons_of_mem _ (findChildRev_wid_mem cs pt _ hrev)
      | none =>
        rw [hrev] at h
        cases h
        exact List.mem_cons_self _ _
    · exact absurd h (by simp)

/-- A successful hit test over a child list resolves to a widget of
one of the children. -/
theorem findChildRev_wid_mem : ∀ (cs : List Widget) (pt : Point) (r : Nat × Point),
    findChildRev cs pt = some r → r.1 ∈ widsList cs
  | [], _, r => by
    intro h
    exact absurd h (by simp [findChildRev])
  | c :: cs, pt, r => by
    intro h
    rw [findChildRev] at h
    rw [widsList]
    cases hrev : findChildRev cs pt with
    | some r2 =>
      rw [hrev] at h
      cases h
      exact List.mem_append_right _ (findChildRev_wid_mem cs pt _ hrev)
    | none =>
      rw [hrev] at h
      exact List.mem_append_left _ (findChildAt_wid_mem c _ r h)

end

/-- A hit test on a widget whose bounds contain the query point always
resolves (at worst to the widget itself). -/
theorem findChildAt_isSome (t : Widget) (pt : Point)
    (h : (Widget.bounds t).containsP pt = true) :
    (findChildAt t pt).isSome = true := by
  obtain ⟨p, cs⟩ := t
  rw [findChildAt, if_pos h]
  cases findChildRev cs pt <;> rfl

/-- If a child's frame contains a query point and the frame's extent
stays within the `int16_t` range, then after translation into the
child's coordinate space (which narrows through the `Point`
constructor) the child's bounds contain the translated point. -/
theorem bounds_contain_translated (fr : Rect) (pt : Point)
    (h : fr.containsP pt = true)
    (hw : fr.size.width ≤ 32767) (hh : fr.size.height ≤ 32767) :
    Rect.containsP ⟨⟨0, 0⟩, fr.size⟩ (translateInto pt fr) = true := by
  rw [Rect.containsP] at h ⊢
  simp only [Bool.and_eq_true, decide_eq_true_eq] at h ⊢
  unfold translateInto wrapS16
  obtain ⟨⟨⟨h1, h2⟩, h3⟩, h4⟩ := h
  refine ⟨⟨⟨?_, ?_⟩, ?_⟩, ?_⟩ <;> simp only [] <;> omega

/-- Claim C6: when a parent holds two sibling children whose frames
both contain a query point (the second child added later, hence at the
back of the child list and visually topmost), `findChildAt` on the
parent descends into the later-added sibling — children are hit-tested
in reverse insertion order and the first child that resolves the point
wins — so the result is a descendant of (or equal to) the later-added
sibling.  The bounds on the later sibling's extent keep the
point-translation narrowing inside the `int16_t` range. -/
theorem hit_test_reverse_z_order (p : WProps) (c1 c2 : Widget) (pt : Point)
    (hroot : (Widget.bounds (Widget.node p [c1, c2])).containsP pt = true)
    (_h1 : c1.props.frame.containsP pt = true)
    (h2 : c2.props.frame.containsP pt = true)
    (hw : c2.props.frame.size.width ≤ 32767)
    (hh : c2.props.frame.size.height ≤ 32767) :
    findChildAt (Widget.node p [c1, c2]) pt
        = findChildAt c2 (translateInto pt c2.props.frame) ∧
    ∃ r, findChildAt (Widget.node p [c1, c2]) pt = some r ∧ r.1 ∈ wids c2 := by
  have hb : (Widget.bounds c2).containsP (translateInto pt c2.props.frame) = true :=
    bounds_contain_translated c2.props.frame pt h2 hw hh
  have hsome := findChildAt_isSome c2 (translateInto pt c2.props.frame) hb
  obtain ⟨r, hr⟩ := Option.isSome_iff_exists.mp hsome
  have hmain : findChildAt (Widget.node p [c1, c2]) pt = some r := by
    rw [findChildAt, if_pos hroot, findChildRev, findChildRev, findChildRev, hr]
  exact ⟨by rw [hmain, hr], r, hmain, findChildAt_wid_mem c2 _ r hr⟩

/-- Witness for `hit_test_reverse_z_order` on the two concrete
overlapping siblings of `overlapTree` at point (60, 60). -/
theorem hit_test_reverse_z_order_witness :
    (Widget.bounds (Widget.node (mkProps 0 demoRootFrame false false false)
        [overlapChildA, overlapChildB])).containsP ⟨60, 60⟩ = true ∧
    overlapChildA.props.frame.containsP ⟨60, 60⟩ = true ∧
    overlapChildB.props.frame.containsP ⟨60, 60⟩ = true ∧
    (findChildAt (Widget.node (mkProps 0 demoRootFrame false false false)
          [overlapChildA, overlapChildB]) ⟨60, 60⟩
        = findChildAt overlapChildB (translateInto ⟨60, 60⟩ overlapChildB.props.frame) ∧
      ∃ r, findChildAt (Widget.node (mkProps 0 demoRootFrame false false false)
          [overlapChildA, overlapChildB]) ⟨60, 60⟩ = some r ∧ r.1 ∈ wids overlapChildB) :=
  ⟨rfl, rfl, rfl,
    hit_test_reverse_z_order (mkProps 0 demoRootFrame false false false)
      overlapChildA overlapChildB ⟨60, 60⟩ rfl rfl rfl (by decide) (by decide)⟩

mutual

/-- The hit-test descent never reads the hidden or inhibit-drawing
flags: rewriting them everywhere leaves the result unchanged. -/
theorem findChildAt_ignores_flags : ∀ (hf hi : Nat → Bool) (t : Widget) (pt : Point),
    findChildAt (setVisFlags hf hi t) pt = findChildAt t pt
  | hf, hi, .node p cs, pt => by
    rw [setVisFlags, findChildAt, findChildAt, findChildRev_ignores_flags hf hi cs pt]
    rfl

/-- `findChildAt_ignores_flags` over a child list. -/
theorem findChildRev_ignores_flags : ∀ (hf hi : Nat → Bool) (cs : List Widget) (pt : Point),
    findChildRev (setVisFlagsList hf hi cs) pt = findChildRev cs pt
  | _, _, [], _ => rfl
  | hf, hi, c :: cs, pt => by
    rw [setVisFlagsList, findChildRev, findChildRev, findChildRev_ignores_flags hf hi cs pt]
    cases findChildRev cs pt with
    | some r => rfl
    | none =>
      have hfr : (setVisFlags hf hi c).props.frame = c.props.frame := by
        obtain ⟨q, ds⟩ := c
        rfl
      rw [hfr, findChildAt_ignores_flags hf hi c (translateInto pt c.props.frame)]

end

/-- Claim C10: hit-testing never consults visibility state — the
descent checks only bounds containment and child order, so rewriting
every widget's hidden and inhibit-drawing flags leaves `findChildAt`
unchanged; and when no tracking is active, the touch branch of
`Screen::processEvents` offers the event to whatever widget the hit
test returned (even one whose hidden or inhibit-drawing flag is set). -/
theorem hit_test_ignores_visibility :
    (∀ (hf hi : Nat → Bool) (t : Widget) (pt : Point),
        findChildAt (setVisFlags hf hi t) pt = findChildAt t pt) ∧
    (∀ (env : RouterEnv) (r : Widget) (s : RouterState) (e : Touch)
        (tw : Nat) (q : Point),
        env.root = some r → s.tracking = none →
        findChildAt r e.position = some (tw, q) →
        tw ∈ (processTouch env s e).2) := by
  constructor
  · exact findChildAt_ignores_flags
  · intro env r s e tw q hroot htr hfind
    have hlock : lockTracking env s = none := by rw [lockTracking, htr]
    simp only [processTouch, hlock, touchHitTest, hroot, hfind]
    cases env.handles tw e with
    | true => simp [beachStep]
    | false =>
      rw [touchRespond]
      cases s.firstResponder <;> simp [beachStep]

/-- Witness for `hit_test_ignores_visibility`: in `overlapTree` the
widget under (60, 60) is widget 2, which is hidden and draw-inhibited,
yet the hit test returns it and the router offers the touch to it. -/
theorem hit_test_ignores_visibility_witness :
    (propsAt overlapTree [1]).map (fun p => p.hidden) = some true ∧
    (propsAt overlapTree [1]).map (fun p => p.inhibitDrawing) = some true ∧
    findChildAt overlapTree ⟨60, 60⟩ = some (2, ⟨10, 10⟩) ∧
    2 ∈ (processTouch demoEnv demoIdle ⟨⟨60, 60⟩, true⟩).2 ∧
    findChildAt (setVisFlags (fun _ => false) (fun _ => false) overlapTree) ⟨60, 60⟩
        = findChildAt overlapTree ⟨60, 60⟩ :=
  ⟨rfl, rfl, rfl,
    hit_test_ignores_visibility.2 demoEnv overlapTree demoIdle ⟨⟨60, 60⟩, true⟩ 2 ⟨10, 10⟩
      rfl rfl rfl,
    hit_test_ignores_visibility.1 (fun _ => false) (fun _ => false) overlapTree ⟨60, 60⟩⟩


/-- Unfolding of the first-responder fallback when a first responder
is set. -/
theorem touchRespond_eq_some (s : RouterState) (e : Touch) (tr : List Nat) (fr : Nat)
    (h : s.firstResponder = some fr) :
    touchRespond s e tr = beachStep s e (tr ++ [fr]) := by
  simp only [touchRespond, h]

/-- Unfolding of the first-responder fallback when no first responder
is set. -/
theorem touchRespond_eq_none (s : RouterState) (e : Touch) (tr : List Nat)
    (h : s.firstResponder = none) :
    touchRespond s e tr = beachStep s e tr := by
  simp only [touchRespond, h]

/-- Unfolding of the hit-test phase when the screen has no root
widget. -/
theorem touchHitTest_eq_noRoot (env : RouterEnv) (s : RouterState) (e : Touch) (b : Bool)
    (tr : List Nat) (h : env.root = none) :
    touchHitTest env s e b tr = touchRespond s e tr := by
  simp only [touchHitTest, h]

/-- Unfolding of the hit-test phase when the hit test finds no
target. -/
theorem touchHitTest_eq_noTarget (env : RouterEnv) (r : Widget) (s : RouterState)
    (e : Touch) (b : Bool) (tr : List Nat) (h : env.root = some r)
    (hf : findChildAt r e.position = none) :
    touchHitTest env s e b tr = touchRespond s e tr := by
  simp only [touchHitTest, h, hf]

/-- Unfolding of the hit-test phase when the hit test resolves a
target widget. -/
theorem touchHitTest_eq_target (env : RouterEnv) (r : Widget) (s : RouterState)
    (e : Touch) (b : Bool) (tr : List Nat) (tw : Nat) (q : Point)
    (h : env.root = some r) (hf : findChildAt r e.position = some (tw, q)) :
    touchHitTest env s e b tr =
      if env.handles tw e then
        beachStep (if b && tracksTouchOf r tw then { s with tracking := some tw } else s)
          e (tr ++ [tw])
      else touchRespond s e (tr ++ [tw]) := by
  simp only [touchHitTest, h, hf]

/-- Unfolding of the touch branch when a live tracking widget is
bound. -/
theorem processTouch_eq_tracked (env : RouterEnv) (s : RouterState) (e : Touch) (w : Nat)
    (h : lockTracking env s = some w) :
    processTouch env s e =
      if env.handles w e then beachStep s e [w] else touchHitTest env s e false [w] := by
  simp only [processTouch, h]

/-- Unfolding of the touch branch when no live tracking widget is
bound. -/
theorem processTouch_eq_untracked (env : RouterEnv) (s : RouterState) (e : Touch)
    (h : lockTracking env s = none) :
    processTouch env s e = touchHitTest env s e true [] := by
  simp only [processTouch, h]

/-- The weak tracking reference locks successfully while the tracked
widget is in the root's tree. -/
theorem lockTracking_eq_some (env : RouterEnv) (r : Widget) (s : RouterState) (w : Nat)
    (hroot : env.root = some r) (halive : w ∈ wids r) (htr : s.tracking = some w) :
    lockTracking env s = some w := by
  simp only [lockTracking, htr, hroot]
  rw [if_pos halive]

/-- The first-responder fallback only appends to the offered-widget
trace. -/
theorem touchRespond_trace (s : RouterState) (e : Touch) (tr : List Nat) :
    ∃ u, (touchRespond s e tr).2 = tr ++ u := by
  obtain ⟨t, fr⟩ := s
  cases fr with
  | none => exact ⟨[], by simp [touchRespond, beachStep]⟩
  | some fr => exact ⟨[fr], rfl⟩

/-- The hit-test phase only appends to the offered-widget trace. -/
theorem touchHitTest_trace (env : RouterEnv) (s : RouterState) (e : Touch) (b : Bool)
    (tr : List Nat) : ∃ u, (touchHitTest env s e b tr).2 = tr ++ u := by
  cases hroot : env.root with
  | none => rw [touchHitTest_eq_noRoot env s e b tr hroot]; exact touchRespond_trace s e tr
  | some r =>
    cases hf : findChildAt r e.position with
    | none =>
      rw [touchHitTest_eq_noTarget env r s e b tr hroot hf]
      exact touchRespond_trace s e tr
    | some tq =>
      obtain ⟨tw, q⟩ := tq
      rw [touchHitTest_eq_target env r s e b tr tw q hroot hf]
      cases hh : env.handles tw e with
      | true => exact ⟨[tw], by simp [beachStep]⟩
      | false =>
        obtain ⟨u, hu⟩ := touchRespond_trace s e (tr ++ [tw])
        exact ⟨[tw] ++ u, by simp only [Bool.false_eq_true, if_false, hu,
          List.append_assoc]⟩

/-- While a live widget is bound as the tracking widget, every touch
event is offered to it first. -/
theorem processTouch_offers_tracked_first (env : RouterEnv) (r : Widget)
    (s : RouterState) (e : Touch) (w : Nat)
    (hroot : env.root = some r) (halive : w ∈ wids r) (htr : s.tracking = some w) :
    ((processTouch env s e).2).head? = some w := by
  rw [processTouch_eq_tracked env s e w (lockTracking_eq_some env r s w hroot halive htr)]
  cases hh : env.handles w e with
  | true => simp [beachStep]
  | false =>
    obtain ⟨u, hu⟩ := touchHitTest_trace env s e false [w]
    simp [hu]

/-- The state produced by the first-responder fallback. -/
theorem touchRespond_state (s : RouterState) (e : Touch) (tr : List Nat) :
    (touchRespond s e tr).1 = if e.isDown then s else { s with tracking := none } := by
  obtain ⟨t, fr⟩ := s
  cases fr <;> rfl

/-- With `wantNewTrackingWidget` false the hit-test phase never
rebinds the tracking widget. -/
theorem touchHitTest_state_noRebind (env : RouterEnv) (s : RouterState) (e : Touch)
    (tr : List Nat) :
    (touchHitTest env s e false tr).1
      = if e.isDown then s else { s with tracking := none } := by
  cases hroot : env.root with
  | none => rw [touchHitTest_eq_noRoot env s e false tr hroot, touchRespond_state]
  | some r =>
    cases hf : findChildAt r e.position with
    | none => rw [touchHitTest_eq_noTarget env r s e false tr hroot hf, touchRespond_state]
    | some tq =>
      obtain ⟨tw, q⟩ := tq
      rw [touchHitTest_eq_target env r s e false tr tw q hroot hf]
      cases hh : env.handles tw e with
      | true => simp [beachStep]
      | false => simp [touchRespond_state]

/-- A touch event in the down state leaves a live tracking binding in
place. -/
theorem processTouch_keeps_tracking (env : RouterEnv) (r : Widget) (s : RouterState)
    (e : Touch) (w : Nat) (hroot : env.root = some r) (halive : w ∈ wids r)
    (htr : s.tracking = some w) (hdown : e.isDown = true) :
    (processTouch env s e).1.tracking = some w := by
  rw [processTouch_eq_tracked env s e w (lockTracking_eq_some env r s w hroot halive htr)]
  cases hh : env.handles w e with
  | true => simp [beachStep, hdown, htr]
  | false =>
    simp only [Bool.false_eq_true, if_false]
    rw [touchHitTest_state_noRebind, if_pos hdown, htr]

/-- A touch event that is not in the down state clears the tracking
binding no matter how it was routed. -/
theorem processTouch_up_clears (env : RouterEnv) (s : RouterState) (e : Touch)
    (hup : e.isDown = false) : (processTouch env s e).1.tracking = none := by
  have hbs : ∀ (s2 : RouterState) (tr : List Nat), (beachStep s2 e tr).1.tracking = none := by
    intro s2 tr
    simp [beachStep, hup]
  have hresp : ∀ (s2 : RouterState) (tr : List Nat),
      (touchRespond s2 e tr).1.tracking = none := by
    intro s2 tr
    rw [touchRespond_state, if_neg (by rw [hup]; exact Bool.false_ne_true)]
  have hhit : ∀ (b : Bool) (tr : List Nat),
      (touchHitTest env s e b tr).1.tracking = none := by
    intro b tr
    cases hroot : env.root with
    | none => rw [touchHitTest_eq_noRoot env s e b tr hroot]; exact hresp s tr
    | some r =>
      cases hf : findChildAt r e.position with
      | none => rw [touchHitTest_eq_noTarget env r s e b tr hroot hf]; exact hresp s tr
      | some tq =>
        obtain ⟨tw, q⟩ := tq
        rw [touchHitTest_eq_target env r s e b tr tw q hroot hf]
        cases hh : env.handles tw e with
        | true => simp only [if_true]; exact hbs _ _
        | false => simp only [Bool.false_eq_true, if_false]; exact hresp s _
  cases hl : lockTracking env s with
  | none => rw [processTouch_eq_untracked env s e hl]; exact hhit true []
  | some w =>
    rw [processTouch_eq_tracked env s e w hl]
    cases hh : env.handles w e with
    | true => simp only [if_true]; exact hbs s [w]
    | false => simp only [Bool.false_eq_true, if_false]; exact hhit false [w]

/-- A widget that opts into touch tracking and consumes a touch-down
found by the hit test while no tracking is active becomes the new
tracking widget. -/
theorem processTouch_binds_consumer (env : RouterEnv) (r : Widget) (s : RouterState)
    (e : Touch) (w : Nat) (q : Point) (hroot : env.root = some r)
    (htr : s.tracking = none) (hdown : e.isDown = true)
    (hfind : findChildAt r e.position = some (w, q))
    (hcons : env.handles w e = true) (hopt : tracksTouchOf r w = true) :
    (processTouch env s e).1.tracking = some w := by
  have hlock : lockTracking env s = none := by simp only [lockTracking, htr]
  rw [processTouch_eq_untracked env s e hlock,
    touchHitTest_eq_target env r s e true [] w q hroot hfind, if_pos hcons, hopt]
  simp [beachStep, hdown]

/-- During a run of down-state touch events with a live tracking
widget bound, every event is offered to the tracked widget first, and
the binding survives the whole run. -/
theorem processTouches_tracked_run (env : RouterEnv) (r : Widget) (w : Nat)
    (hroot : env.root = some r) (halive : w ∈ wids r) :
    ∀ (ds : List Touch) (s : RouterState), s.tracking = some w →
      (∀ d ∈ ds, d.isDown = true) →
      (∀ tr ∈ (processTouches env s ds).2, tr.head? = some w) ∧
        (processTouches env s ds).1.tracking = some w := by
  intro ds
  induction ds with
  | nil =>
    intro s htr _
    refine ⟨?_, htr⟩
    intro tr htr2
    simp [processTouches] at htr2
  | cons d ds ih =>
    intro s htr hall
    have hd : d.isDown = true := hall d (List.mem_cons_self d ds)
    have hkeep := processTouch_keeps_tracking env r s d w hroot halive htr hd
    have hrest := ih (processTouch env s d).1 hkeep
      (fun x hx => hall x (List.mem_cons_of_mem d hx))
    refine ⟨?_, ?_⟩
    · intro tr htr2
      simp only [processTouches, List.mem_cons] at htr2
      rcases htr2 with h | h
      · subst h
        exact processTouch_offers_tracked_first env r s d w hroot halive htr
      · exact hrest.1 tr h
    · simpa only [processTouches] using hrest.2

/-- After a run of down-state events with a live tracking binding, one
touch-up event clears the binding. -/
theorem processTouches_run_then_up (env : RouterEnv) (r : Widget) (w : Nat) (e : Touch)
    (hroot : env.root = some r) (halive : w ∈ wids r) (hup : e.isDown = false) :
    ∀ (ds : List Touch) (s : RouterState), s.tracking = some w →
      (∀ d ∈ ds, d.isDown = true) →
      (processTouches env s (ds ++ [e])).1.tracking = none := by
  intro ds
  induction ds with
  | nil =>
    intro s _ _
    simpa only [List.nil_append, processTouches] using processTouch_up_clears env s e hup
  | cons d ds ih =>
    intro s htr hall
    have hd : d.isDown = true := hall d (List.mem_cons_self d ds)
    have hkeep := processTouch_keeps_tracking env r s d w hroot halive htr hd
    simpa only [List.cons_append, processTouches] using
      ih (processTouch env s d).1 hkeep (fun x hx => hall x (List.mem_cons_of_mem d hx))

/-- Every trace of the tracked run — the down-state events and the
event that follows them — starts with the tracked widget. -/
theorem processTouches_heads_until_up (env : RouterEnv) (r : Widget) (w : Nat)
    (e : Touch) (rest : List Touch)
    (hroot : env.root = some r) (halive : w ∈ wids r) :
    ∀ (ds : List Touch) (s : RouterState), s.tracking = some w →
      (∀ d ∈ ds, d.isDown = true) →
      ∀ tr ∈ ((processTouches env s (ds ++ e :: rest)).2).take (ds.length + 1),
        tr.head? = some w := by
  intro ds
  induction ds with
  | nil =>
    intro s htr _ tr htr2
    simp only [List.nil_append, processTouches, List.length_nil, List.take_succ_cons,
      List.take_zero, List.mem_singleton] at htr2
    subst htr2
    exact processTouch_offers_tracked_first env r s e w hroot halive htr
  | cons d ds ih =>
    intro s htr hall tr htr2
    have hd : d.isDown = true := hall d (List.mem_cons_self d ds)
    have hkeep := processTouch_keeps_tracking env r s d w hroot halive htr hd
    simp only [List.cons_append, processTouches, List.length_cons, List.take_succ_cons,
      List.mem_cons] at htr2
    rcases htr2 with h | h
    · subst h
      exact processTouch_offers_tracked_first env r s d w hroot halive htr
    · exact ih (processTouch env s d).1 hkeep
        (fun x hx => hall x (List.mem_cons_of_mem d hx)) tr h

/-- Claim C5: once a widget that opts into touch tracking consumes a
touch-down event (found by the hit test while no tracking was active),
it becomes the tracking widget; every subsequent touch event — here a
run `ds` of down-state events followed by an arbitrary event `e`, even
when their positions lie outside the widget's bounds — is offered to
that widget first; and as soon as an event whose `isDown` is false is
processed, the tracking binding is cleared regardless of whether that
event was consumed. -/
theorem touch_tracking_continuity (env : RouterEnv) (r : Widget) (s0 : RouterState)
    (e0 : Touch) (w : Nat) (q : Point) (ds : List Touch) (e : Touch) (rest : List Touch)
    (hroot : env.root = some r) (h0 : s0.tracking = none) (hdown0 : e0.isDown = true)
    (hfind : findChildAt r e0.position = some (w, q)) (hcons : env.handles w e0 = true)
    (hopt : tracksTouchOf r w = true) (hds : ∀ d ∈ ds, d.isDown = true) :
    (processTouch env s0 e0).1.tracking = some w ∧
    (∀ tr ∈ ((processTouches env s0 (e0 :: (ds ++ e :: rest))).2.drop 1).take
        (ds.length + 1), tr.head? = some w) ∧
    (e.isDown = false →
      (processTouches env s0 (e0 :: (ds ++ [e]))).1.tracking = none) := by
  have halive : w ∈ wids r := findChildAt_wid_mem r e0.position (w, q) hfind
  have h1 := processTouch_binds_consumer env r s0 e0 w q hroot h0 hdown0 hfind hcons hopt
  refine ⟨h1, ?_, ?_⟩
  · intro tr htr2
    simp only [processTouches, List.drop_succ_cons, List.drop_zero] at htr2
    exact processTouches_heads_until_up env r w e rest hroot halive ds
      (processTouch env s0 e0).1 h1 hds tr htr2
  · intro hup
    simpa only [processTouches] using
      processTouches_run_then_up env r w e hroot halive hup ds
        (processTouch env s0 e0).1 h1 hds

/-- Witness for `touch_tracking_continuity`: in `overlapTree`, widget
2 consumes the touch-down at (60, 60) and opts into tracking; a
touch-move at (700, 400) — far outside its bounds — stays bound to it,
and the touch-up at (700, 400) clears the binding. -/
theorem touch_tracking_continuity_witness :
    (processTouch demoEnv demoIdle ⟨⟨60, 60⟩, true⟩).1.tracking = some 2 ∧
    (processTouches demoEnv demoIdle
        (⟨⟨60, 60⟩, true⟩ :: ([⟨⟨700, 400⟩, true⟩] ++ [⟨⟨700, 400⟩, false⟩]))).1.tracking
      = none :=
  ⟨(touch_tracking_continuity demoEnv overlapTree demoIdle ⟨⟨60, 60⟩, true⟩ 2 ⟨10, 10⟩
      [⟨⟨700, 400⟩, true⟩] ⟨⟨700, 400⟩, false⟩ [] rfl rfl rfl rfl rfl rfl
      (by decide)).1,
   (touch_tracking_continuity demoEnv overlapTree demoIdle ⟨⟨60, 60⟩, true⟩ 2 ⟨10, 10⟩
      [⟨⟨700, 400⟩, true⟩] ⟨⟨700, 400⟩, false⟩ [] rfl rfl rfl rfl rfl rfl
      (by decide)).2.2 rfl⟩

end ShittyGui
